import Mathlib

/-!
Verification of the task-ordering and synchronization subsystem of the
jira-todo browser extension (classes `TaskManager` and `JiraAPI`).

The definitions below are a shallow embedding of the JavaScript source:
pure computations become Lean functions, the mutable fields of the
`TaskManager` object become a record threaded through the operations,
asynchronous operations that can reject are modelled with `Except`, and
the external collaborators (tracker client, `chrome.storage`, DOM, timers)
are modelled as explicit inputs or small state records.
-/

namespace JiraTodo

/-- An issue record as produced by `JiraAPI.transformTasks`: only the
fields the ordering core reads are carried (`key` is the stable
identifier; `summary` stands for the display payload). -/
structure Task where
  key : String
  summary : String
  deriving Repr, DecidableEq

/-- The order-reconciliation step performed inline by
`TaskManager.loadTasks` (part_000 lines 45-55): if the prior order is
empty, take the fetched keys in fetch order; otherwise drop order
entries whose key no longer occurs in the fetch, then append fetched
keys not already present, in fetch order. -/
def reconcile (orderList : List String) (tasks : List Task) : List String :=
  if orderList.length == 0 then
    tasks.map Task.key
  else
    let existingKeys := tasks.map Task.key
    let filtered := orderList.filter (fun key => existingKeys.contains key)
    let newKeys := (tasks.map Task.key).filter (fun key => !(filtered.contains key))
    filtered ++ newKeys

/-- The mutable fields of the `TaskManager` object together with the
visible side effects on its collaborators: the DOM indicators
(`loadingShown`, `errorShown`, `emptyShown`), the rendered card order,
the `chrome.storage.local` copy of the order list, the stats line, and
the interval handle. -/
structure TMState where
  tasks : List Task
  taskOrder : List String
  isLoading : Bool
  loadingShown : Bool
  errorShown : Option String
  emptyShown : Bool
  rendered : List String
  storedOrder : Option (List String)
  statsCount : Nat
  refreshInterval : Option Nat
  deriving Repr, DecidableEq

/-- Field initialisation performed by the `TaskManager` constructor
(part_000 lines 2-10), with the collaborators in their initial state. -/
def initialTM : TMState :=
  { tasks := [], taskOrder := [], isLoading := false, loadingShown := false,
    errorShown := none, emptyShown := false, rendered := [], storedOrder := none,
    statsCount := 0, refreshInterval := none }

/-- `TaskManager.showError` (part_000 lines 291-295). -/
def showError (s : TMState) (message : String) : TMState :=
  { s with errorShown := some message }

/-- `TaskManager.hideError` (part_000 lines 297-299). -/
def hideError (s : TMState) : TMState :=
  { s with errorShown := none }

/-- `TaskManager.showLoading` (part_000 lines 286-289). -/
def showLoading (s : TMState) (b : Bool) : TMState :=
  { s with loadingShown := b }

/-- `TaskManager.showEmptyState` (part_000 lines 301-304). -/
def showEmptyState (s : TMState) : TMState :=
  { s with emptyShown := true }

/-- `TaskManager.hideEmptyState` (part_000 lines 306-309). -/
def hideEmptyState (s : TMState) : TMState :=
  { s with emptyShown := false }

/-- `TaskManager.saveTaskOrder` (part_000 lines 194-198): writes the
current `taskOrder` to `chrome.storage.local` and resolves. -/
def saveTaskOrder (s : TMState) : TMState :=
  { s with storedOrder := some s.taskOrder }

/-- `TaskManager.renderTasks` (part_000 lines 72-91): clear the
container; when the task list is empty show the empty state, otherwise
hide it and append the cards in `taskOrder` order, skipping order
entries with no matching task. -/
def renderTasks (s : TMState) : TMState :=
  if s.tasks.length == 0 then
    { s with rendered := [], emptyShown := true }
  else
    let sortedTasks := s.taskOrder.filterMap
      (fun key => s.tasks.find? (fun t => t.key == key))
    { (hideEmptyState s) with rendered := sortedTasks.map Task.key }

/-- `TaskManager.updateStats` (part_000 lines 248-255). -/
def updateStats (s : TMState) : TMState :=
  { s with statsCount := s.tasks.length }

/-- Outcome of the awaited `jiraApi.searchTasks` call: the resolved
task list, or the message of the rejection. -/
abbrev FetchOutcome := Except String (List Task)

/-- The state updates of `loadTasks` preceding the fetch (part_000
lines 38-40): set the busy flag, show the spinner, clear the error. -/
def loadBegin (s : TMState) : TMState :=
  hideError (showLoading { s with isLoading := true } true)

/-- The `try` block of `loadTasks` (part_000 lines 42-63): assign the
fetched tasks, reconcile the order, persist it, render, update stats,
and show the empty state for a zero-issue fetch.  A rejection of the
fetch propagates out of the block. -/
def loadTryBody (s : TMState) (fetch : FetchOutcome) : Except String TMState := do
  let tasks ← fetch
  let s := { s with tasks := tasks }
  let s := { s with taskOrder := reconcile s.taskOrder s.tasks }
  let s := saveTaskOrder s
  let s := renderTasks s
  let s := updateStats s
  pure (if s.tasks.length == 0 then showEmptyState s else s)

/-- `TaskManager.loadTasks` (part_000 lines 35-70) as a whole: the
single-flight guard, then the `try`/`catch`/`finally` structure.  The
Boolean records whether `jiraApi.searchTasks` was invoked by this call;
an `Except.error` result would model the returned promise rejecting. -/
def loadTasksE (s : TMState) (fetch : FetchOutcome) : Except String (TMState × Bool) :=
  if s.isLoading then Except.ok (s, false)
  else
    let s1 := loadBegin s
    let afterCatch : Except String TMState :=
      match loadTryBody s1 fetch with
      | Except.ok s2 => Except.ok s2
      | Except.error msg => Except.ok (showError s1 msg)
    match afterCatch with
    | Except.ok s2 => Except.ok (showLoading { s2 with isLoading := false } false, true)
    | Except.error msg => Except.error msg

/-- The fulfilled value of the `loadTasks` promise: the state after the
`finally` block, plus whether the tracker client was invoked.  (A
rejected promise would leave the caller's state unchanged.) -/
def loadTasksRun (s : TMState) (fetch : FetchOutcome) : TMState × Bool :=
  match loadTasksE s fetch with
  | Except.ok r => r
  | Except.error _ => (s, false)

/-- Number of `jiraApi.searchTasks` invocations performed by one
`loadTasks` call with the given result. -/
def invocations : Except String (TMState × Bool) → Nat
  | Except.ok (_, true) => 1
  | _ => 0

/-- Error dispatch of `JiraAPI.searchTasks` on a non-ok HTTP response
(part_001 lines 130-167): 401, 403 and 404 produce fixed messages; any
other status falls through with the best-effort `errorMessage`
extracted from the status line and response body. -/
def searchTasksErrorMessage (status : Nat) (errorMessage : String) : String :=
  if status == 401 then "Not authenticated. Please log in to JIRA first."
  else if status == 403 then "Access denied. Check your JIRA permissions."
  else if status == 404 then "JIRA API endpoint not found. Check your JIRA URL."
  else "Failed to fetch tasks: " ++ errorMessage

def isInfixChars (pat : List Char) : List Char → Bool
  | [] => pat.isPrefixOf []
  | c :: cs => pat.isPrefixOf (c :: cs) || isInfixChars pat cs

/-- `hasSubstr msg pat` holds when `pat` occurs contiguously in `msg`. -/
def hasSubstr (msg pat : String) : Bool :=
  isInfixChars pat.data msg.data

/-- Outcome of the `chrome.storage.local.get(['taskOrder'], cb)` read:
the callback result's `taskOrder` property (absent when nothing is
stored), or a failed read — chrome still invokes the callback, with an
empty result object, so the property is likewise absent. -/
inductive StorageRead where
  | ok (taskOrder : Option (List String))
  | failed
  deriving Repr, DecidableEq

/-- `TaskManager.loadTaskOrder` (part_000 lines 200-207):
`this.taskOrder = result.taskOrder || []`, then resolve. -/
def loadTaskOrder (s : TMState) (r : StorageRead) : TMState :=
  match r with
  | StorageRead.ok (some order) => { s with taskOrder := order }
  | StorageRead.ok none => { s with taskOrder := [] }
  | StorageRead.failed => { s with taskOrder := [] }

/-- `TaskManager.updateTaskOrder` (part_000 lines 188-192): the card
order read back from the DOM becomes the new `taskOrder` and is
persisted via `saveTaskOrder`. -/
def updateTaskOrder (s : TMState) (domOrder : List String) : TMState :=
  saveTaskOrder { s with taskOrder := domOrder }

/-- The host environment's interval timers: identifiers of the active
intervals, plus a counter supplying fresh identifiers. -/
structure TimerSys where
  active : List Nat
  nextId : Nat
  deriving Repr, DecidableEq

/-- `clearInterval(id)`. -/
def clearIntervalSys (ts : TimerSys) (id : Nat) : TimerSys :=
  { ts with active := ts.active.erase id }

/-- `setInterval(...)`: activates a fresh timer and returns its handle. -/
def setIntervalSys (ts : TimerSys) : TimerSys × Nat :=
  ({ active := ts.active ++ [ts.nextId], nextId := ts.nextId + 1 }, ts.nextId)

/-- `TaskManager.setupAutoRefresh` (part_000 lines 257-268): the body
of the `chrome.storage.sync.get(['autoRefresh'], cb)` callback, with
the stored `autoRefresh` value passed in (`none` models `undefined`).
Any existing interval is cleared first; a new one is created unless
`autoRefresh` is literally `false`. -/
def setupAutoRefresh (tm : TMState) (ts : TimerSys) (autoRefresh : Option Bool) :
    TMState × TimerSys :=
  let cleared : TMState × TimerSys :=
    match tm.refreshInterval with
    | some id => ({ tm with refreshInterval := none }, clearIntervalSys ts id)
    | none => (tm, ts)
  if autoRefresh != some false then
    ({ cleared.1 with refreshInterval := some (setIntervalSys cleared.2).2 },
      (setIntervalSys cleared.2).1)
  else cleared

/-- A sequence of `setupAutoRefresh` invocations, each observing the
`autoRefresh` setting stored at that moment. -/
def runAutoRefreshSeq (p : TMState × TimerSys) : List (Option Bool) → TMState × TimerSys
  | [] => p
  | o :: os => runAutoRefreshSeq (setupAutoRefresh p.1 p.2 o) os

/-- The reply delivered through `sendResponse` by the reload-tasks
message handler. -/
inductive Reply where
  | reloaded
  | failure (message : String)
  deriving Repr, DecidableEq

/-- The `reload-tasks` branch of `TaskManager.setupMessageListener`
(part_000 lines 272-283): run `loadTasks(true)`; when its promise
fulfils reply `{ reloaded: true }`, when it rejects reply
`{ error: message }`. -/
def onReloadTasksMessage (s : TMState) (fetch : FetchOutcome) : TMState × Reply :=
  match loadTasksE s fetch with
  | Except.ok (s2, _) => (s2, Reply.reloaded)
  | Except.error msg => (s, Reply.failure msg)

theorem contains_eq_decide_mem (l : List String) (a : String) :
    l.contains a = decide (a ∈ l) := by
  simp [List.contains, List.elem_eq_mem]

/-- Normal form of `reconcile`: the append of the surviving prior order
and the genuinely new fetched keys, with memberships made explicit. -/
theorem reconcile_eq (O : List String) (F : List Task) :
    reconcile O F =
      if O = [] then F.map Task.key
      else (O.filter fun k => decide (k ∈ F.map Task.key)) ++
           ((F.map Task.key).filter fun k => decide (k ∉ O)) := by
  unfold reconcile
  by_cases h : O = []
  · simp [h]
  · have hlen : (O.length == 0) = false := by
      simp [List.length_eq_zero, h]
    rw [hlen]
    simp only [if_neg h, Bool.false_eq_true, if_false]
    have h1 : (O.filter fun key => (F.map Task.key).contains key) =
        (O.filter fun k => decide (k ∈ F.map Task.key)) := by
      apply List.filter_congr
      intro x _
      exact contains_eq_decide_mem _ _
    rw [h1]
    congr 1
    apply List.filter_congr
    intro x hx
    rw [contains_eq_decide_mem]
    by_cases hxO : x ∈ O
    · have hmem : x ∈ (O.filter fun k => decide (k ∈ F.map Task.key)) :=
        List.mem_filter.mpr ⟨hxO, decide_eq_true hx⟩
      rw [decide_eq_true hmem, decide_eq_false (not_not_intro hxO)]
      rfl
    · have hmem : x ∉ (O.filter fun k => decide (k ∈ F.map Task.key)) := by
        intro hc
        exact hxO (List.mem_filter.mp hc).1
      rw [decide_eq_false hmem, decide_eq_true hxO]
      rfl

theorem count_one_of_nodup (l : List String) (a : String)
    (hd : l.Nodup) (h : a ∈ l) : l.count a = 1 := by
  induction l with
  | nil => cases h
  | cons b t ih =>
    rw [List.count_cons]
    rcases List.mem_cons.mp h with heq | hmem
    · subst heq
      have hb : a ∉ t := (List.nodup_cons.mp hd).1
      simp [List.count_eq_zero.mpr hb]
    · have hne : (b == a) = false := by
        have : b ≠ a := by
          rintro rfl
          exact (List.nodup_cons.mp hd).1 hmem
        simp [this]
      simp [ih (List.nodup_cons.mp hd).2 hmem, hne]

example : reconcile ["A", "B", "C"] [⟨"B", "b"⟩, ⟨"D", "d"⟩] = ["B", "D"] := by decide
example : reconcile [] [⟨"X", "x"⟩, ⟨"Y", "y"⟩, ⟨"Z", "z"⟩] = ["X", "Y", "Z"] := by decide

/-- C1: for every non-empty fetched issue list F with pairwise-distinct
keys and every duplicate-free prior order list O, the reconcile step of
`loadTasks` produces an order containing each key of F exactly once,
arranged as the keys of O that occur in F (in O's relative order)
followed by the keys of F not in O (in F's order). -/
theorem reconcile_merge_spec (O : List String) (F : List Task)
    (hne : F ≠ []) (hF : (F.map Task.key).Nodup) (hO : O.Nodup) :
    (∀ k ∈ F.map Task.key, (reconcile O F).count k = 1) ∧
    reconcile O F =
      (O.filter fun k => decide (k ∈ F.map Task.key)) ++
      ((F.map Task.key).filter fun k => decide (k ∉ O)) := by
  have harr : reconcile O F =
      (O.filter fun k => decide (k ∈ F.map Task.key)) ++
      ((F.map Task.key).filter fun k => decide (k ∉ O)) := by
    rw [reconcile_eq]
    by_cases h : O = []
    · subst h
      simp
    · rw [if_neg h]
  refine ⟨?_, harr⟩
  intro k hk
  rw [harr, List.count_append]
  by_cases hkO : k ∈ O
  · have c1 : ((O.filter fun k => decide (k ∈ F.map Task.key)).count k) = 1 := by
      rw [List.count_filter (by simpa using hk)]
      exact count_one_of_nodup O k hO hkO
    have c2 : (((F.map Task.key).filter fun k => decide (k ∉ O)).count k) = 0 := by
      apply List.count_eq_zero.mpr
      intro hc
      exact (of_decide_eq_true (List.mem_filter.mp hc).2) hkO
    rw [c1, c2]
  · have c1 : ((O.filter fun k => decide (k ∈ F.map Task.key)).count k) = 0 := by
      apply List.count_eq_zero.mpr
      intro hc
      exact hkO (List.mem_filter.mp hc).1
    have c2 : (((F.map Task.key).filter fun k => decide (k ∉ O)).count k) = 1 := by
      rw [List.count_filter (by simpa using hkO)]
      exact count_one_of_nodup _ k hF hk
    rw [c1, c2]

/-- Witness for C1 at the spec scenario O = ["A","B","C"], F = [B, D]. -/
theorem reconcile_merge_spec_witness :
    (∀ k ∈ ([⟨"B", "b"⟩, ⟨"D", "d"⟩] : List Task).map Task.key,
      (reconcile ["A", "B", "C"] [⟨"B", "b"⟩, ⟨"D", "d"⟩]).count k = 1) ∧
    reconcile ["A", "B", "C"] [⟨"B", "b"⟩, ⟨"D", "d"⟩] =
      (["A", "B", "C"].filter fun k =>
        decide (k ∈ ([⟨"B", "b"⟩, ⟨"D", "d"⟩] : List Task).map Task.key)) ++
      ((([⟨"B", "b"⟩, ⟨"D", "d"⟩] : List Task).map Task.key).filter fun k =>
        decide (k ∉ ["A", "B", "C"])) :=
  reconcile_merge_spec ["A", "B", "C"] [⟨"B", "b"⟩, ⟨"D", "d"⟩]
    (by decide) (by decide) (by decide)

/-- C2: the reconcile step of `loadTasks` is stable under repeated
application with the same fetch, and is deterministic (the same inputs
always give the same output). -/
theorem reconcile_stable (O : List String) (F : List Task) :
    reconcile (reconcile O F) F = reconcile O F ∧
    reconcile O F = reconcile O F := by
  refine ⟨?_, rfl⟩
  have self_id : ∀ L : List String, (∀ x ∈ L, x ∈ F.map Task.key) →
      (∀ k ∈ F.map Task.key, k ∈ L) → reconcile L F = L := by
    intro L hsub hsup
    rw [reconcile_eq]
    by_cases hL : L = []
    · subst hL
      have : F.map Task.key = [] := by
        apply List.eq_nil_iff_forall_not_mem.mpr
        intro k hk
        exact absurd (hsup k hk) (List.not_mem_nil k)
      rw [if_pos rfl, this]
    · rw [if_neg hL]
      have h1 : (L.filter fun k => decide (k ∈ F.map Task.key)) = L :=
        List.filter_eq_self.mpr (fun a ha => decide_eq_true (hsub a ha))
      have h2 : ((F.map Task.key).filter fun k => decide (k ∉ L)) = [] := by
        apply List.filter_eq_nil_iff.mpr
        intro k hk hc
        exact (of_decide_eq_true hc) (hsup k hk)
      rw [h1, h2, List.append_nil]
  by_cases h : O = []
  · have hinner : reconcile O F = F.map Task.key := by
      rw [reconcile_eq, if_pos h]
    rw [hinner]
    exact self_id _ (fun x hx => hx) (fun k hk => hk)
  · have hinner : reconcile O F =
        (O.filter fun k => decide (k ∈ F.map Task.key)) ++
        ((F.map Task.key).filter fun k => decide (k ∉ O)) := by
      rw [reconcile_eq, if_neg h]
    rw [hinner]
    apply self_id
    · intro x hx
      rcases List.mem_append.mp hx with hxa | hxb
      · exact of_decide_eq_true (List.mem_filter.mp hxa).2
      · exact (List.mem_filter.mp hxb).1
    · intro k hk
      by_cases hkO : k ∈ O
      · exact List.mem_append.mpr (Or.inl (List.mem_filter.mpr ⟨hkO, decide_eq_true hk⟩))
      · exact List.mem_append.mpr (Or.inr (List.mem_filter.mpr ⟨hk, decide_eq_true hkO⟩))

theorem loadTasksE_ok (s : TMState) (fetch : FetchOutcome) :
    ∃ r, loadTasksE s fetch = Except.ok r := by
  unfold loadTasksE
  by_cases h : s.isLoading = true
  · rw [if_pos h]
    exact ⟨(s, false), rfl⟩
  · rw [if_neg h]
    cases fetch with
    | ok tasks => exact ⟨_, rfl⟩
    | error msg => exact ⟨_, rfl⟩

/-- C9: the promise returned by `loadTasks` always fulfils and never
rejects: for every prior state and every fetch outcome (success, empty
result, failure, or the in-flight no-op) the call resolves normally, so
no exception reaches the callers of `loadTasks`. -/
theorem loadTasks_never_rejects (s : TMState) (fetch : FetchOutcome) :
    (loadTasksE s fetch).isOk = true := by
  obtain ⟨r, hr⟩ := loadTasksE_ok s fetch
  rw [hr]
  rfl

/-- C3: the single-flight guard: from an idle state the first
`loadTasks` call invokes the tracker client, a second call issued while
the first is in flight performs no invocation and no state change — so
the pair performs exactly one `searchTasks` invocation — and any call
beginning while the busy flag is set is such a no-op, so fetch cycles
never overlap. -/
theorem loadTasks_single_flight (s t : TMState) (f1 f2 : FetchOutcome)
    (h : s.isLoading = false) (hb : t.isLoading = true) :
    invocations (loadTasksE s f1) + invocations (loadTasksE (loadBegin s) f2) = 1 ∧
    loadTasksE t f2 = Except.ok (t, false) := by
  have hguard : ∀ u : TMState, u.isLoading = true →
      loadTasksE u f2 = Except.ok (u, false) := by
    intro u hu
    unfold loadTasksE
    rw [if_pos hu]
  have h2 : loadTasksE (loadBegin s) f2 = Except.ok (loadBegin s, false) :=
    hguard _ rfl
  refine ⟨?_, hguard t hb⟩
  rw [h2]
  have h1 : ∃ s2, loadTasksE s f1 = Except.ok (s2, true) := by
    unfold loadTasksE
    rw [if_neg (by simp [h])]
    cases f1 with
    | ok tasks => exact ⟨_, rfl⟩
    | error msg => exact ⟨_, rfl⟩
  obtain ⟨s2, hh⟩ := h1
  rw [hh]
  rfl

/-- Witness for C3: two refresh calls from the freshly constructed
manager, the second issued while the first is in flight. -/
theorem loadTasks_single_flight_witness :
    invocations (loadTasksE initialTM (Except.ok [])) +
      invocations (loadTasksE (loadBegin initialTM) (Except.ok [])) = 1 ∧
    loadTasksE (loadBegin initialTM) (Except.ok []) =
      Except.ok (loadBegin initialTM, false) :=
  loadTasks_single_flight initialTM (loadBegin initialTM)
    (Except.ok []) (Except.ok []) rfl rfl

/-- C4 counterexample: a reload-tasks message whose refresh fails (the
tracker client rejects with the 401 message, and the failure is indeed
surfaced in the error display) is nevertheless answered with the
success acknowledgment, not with an error payload. -/
theorem reload_reply_counterexample :
    (onReloadTasksMessage initialTM
        (Except.error "Not authenticated. Please log in to JIRA first.")).2 =
      Reply.reloaded ∧
    (onReloadTasksMessage initialTM
        (Except.error "Not authenticated. Please log in to JIRA first.")).1.errorShown =
      some "Not authenticated. Please log in to JIRA first." :=
  ⟨rfl, rfl⟩

/-- C4 (amended): every reload-tasks message receives exactly one reply
once the triggered refresh settles, and that reply is always the
success acknowledgment `{ reloaded: true }` — also when the refresh
fails — because `loadTasks` converts tracker errors into a displayed
message and its promise always fulfils, leaving the handler's
`{ error: message }` branch unreachable. -/
theorem reload_reply_always_ack (s : TMState) (fetch : FetchOutcome) :
    (onReloadTasksMessage s fetch).2 = Reply.reloaded := by
  obtain ⟨r, hr⟩ := loadTasksE_ok s fetch
  obtain ⟨s2, b⟩ := r
  unfold onReloadTasksMessage
  rw [hr]

/-- C5: a refresh in which the tracker client raises a 401-style error
ends with the busy flag clear, surfaces the authentication-specific
message (it contains the hint "log in"), and leaves the task list, the
order list and its persisted copy exactly as they were. -/
theorem refresh_auth_error_safe (s : TMState) (body : String)
    (h : s.isLoading = false) :
    (loadTasksRun s (Except.error (searchTasksErrorMessage 401 body))).1.isLoading
      = false ∧
    (loadTasksRun s (Except.error (searchTasksErrorMessage 401 body))).1.errorShown
      = some (searchTasksErrorMessage 401 body) ∧
    hasSubstr (searchTasksErrorMessage 401 body) "log in" = true ∧
    (loadTasksRun s (Except.error (searchTasksErrorMessage 401 body))).1.tasks
      = s.tasks ∧
    (loadTasksRun s (Except.error (searchTasksErrorMessage 401 body))).1.taskOrder
      = s.taskOrder ∧
    (loadTasksRun s (Except.error (searchTasksErrorMessage 401 body))).1.storedOrder
      = s.storedOrder := by
  have hrun : loadTasksRun s (Except.error (searchTasksErrorMessage 401 body)) =
      (showLoading
        { showError (loadBegin s) (searchTasksErrorMessage 401 body) with
            isLoading := false } false, true) := by
    unfold loadTasksRun loadTasksE loadTryBody
    rw [if_neg (by simp [h])]
    rfl
  have hmsg : searchTasksErrorMessage 401 body =
      "Not authenticated. Please log in to JIRA first." := rfl
  rw [hrun, hmsg]
  exact ⟨rfl, rfl, by decide, rfl, rfl, rfl⟩

/-- Witness for C5: a 401 failure on the freshly constructed manager. -/
theorem refresh_auth_error_safe_witness :
    (loadTasksRun initialTM (Except.error (searchTasksErrorMessage 401 ""))).1.isLoading
      = false ∧
    (loadTasksRun initialTM (Except.error (searchTasksErrorMessage 401 ""))).1.errorShown
      = some (searchTasksErrorMessage 401 "") ∧
    hasSubstr (searchTasksErrorMessage 401 "") "log in" = true ∧
    (loadTasksRun initialTM (Except.error (searchTasksErrorMessage 401 ""))).1.tasks
      = initialTM.tasks ∧
    (loadTasksRun initialTM (Except.error (searchTasksErrorMessage 401 ""))).1.taskOrder
      = initialTM.taskOrder ∧
    (loadTasksRun initialTM (Except.error (searchTasksErrorMessage 401 ""))).1.storedOrder
      = initialTM.storedOrder :=
  refresh_auth_error_safe initialTM "" rfl

theorem setupAutoRefresh_step (tm : TMState) (ts : TimerSys) (o : Option Bool)
    (hinv : ts.active = tm.refreshInterval.toList) :
    (setupAutoRefresh tm ts o).2.active =
      (setupAutoRefresh tm ts o).1.refreshInterval.toList ∧
    (setupAutoRefresh tm ts o).2.active.length =
      if o = some false then 0 else 1 := by
  rcases htm : tm.refreshInterval with _ | id
  · rw [htm] at hinv
    rcases o with _ | b
    · simp [setupAutoRefresh, setIntervalSys, htm, hinv]
    · cases b
      · simp [setupAutoRefresh, setIntervalSys, htm, hinv]
      · simp [setupAutoRefresh, setIntervalSys, htm, hinv]
  · rw [htm] at hinv
    rcases o with _ | b
    · simp [setupAutoRefresh, clearIntervalSys, setIntervalSys, htm, hinv]
    · cases b
      · simp [setupAutoRefresh, clearIntervalSys, setIntervalSys, htm, hinv]
      · simp [setupAutoRefresh, clearIntervalSys, setIntervalSys, htm, hinv]

theorem runAutoRefreshSeq_inv (os : List (Option Bool)) :
    ∀ tm ts, ts.active = tm.refreshInterval.toList →
      (runAutoRefreshSeq (tm, ts) os).2.active =
        (runAutoRefreshSeq (tm, ts) os).1.refreshInterval.toList := by
  induction os with
  | nil => intro tm ts h; exact h
  | cons o os ih =>
    intro tm ts h
    have step := setupAutoRefresh_step tm ts o h
    exact ih (setupAutoRefresh tm ts o).1 (setupAutoRefresh tm ts o).2 step.1

theorem runAutoRefreshSeq_append (os : List (Option Bool)) (o : Option Bool) :
    ∀ p, runAutoRefreshSeq p (os ++ [o]) =
      setupAutoRefresh (runAutoRefreshSeq p os).1 (runAutoRefreshSeq p os).2 o := by
  induction os with
  | nil => intro p; rfl
  | cons x xs ih =>
    intro p
    simp only [List.cons_append, runAutoRefreshSeq]
    exact ih _

/-- C6: across any sequence of `setupAutoRefresh` invocations the
manager keeps at most one interval timer alive — each call clears any
prior interval before possibly creating a new one — and after one
further call exactly one timer is active when auto-refresh is enabled
and none when it is disabled. -/
theorem auto_refresh_single_timer (os : List (Option Bool)) (o : Option Bool)
    (tm : TMState) (ts : TimerSys)
    (hinv : ts.active = tm.refreshInterval.toList) :
    (runAutoRefreshSeq (tm, ts) os).2.active.length ≤ 1 ∧
    (runAutoRefreshSeq (tm, ts) (os ++ [o])).2.active.length =
      if o = some false then 0 else 1 := by
  have hrun := runAutoRefreshSeq_inv os tm ts hinv
  constructor
  · rw [hrun]
    cases (runAutoRefreshSeq (tm, ts) os).1.refreshInterval <;> simp [Option.toList]
  · rw [runAutoRefreshSeq_append]
    exact (setupAutoRefresh_step _ _ o hrun).2

/-- Witness for C6: enabling auto-refresh twice in a row from the
initial state leaves exactly one active timer. -/
theorem auto_refresh_single_timer_witness :
    (runAutoRefreshSeq (initialTM, ⟨[], 0⟩) [some true]).2.active.length ≤ 1 ∧
    (runAutoRefreshSeq (initialTM, ⟨[], 0⟩) ([some true] ++ [some true])).2.active.length =
      if (some true : Option Bool) = some false then 0 else 1 :=
  auto_refresh_single_timer [some true] (some true) initialTM ⟨[], 0⟩ rfl

/-- C7: `loadTaskOrder` never fails its caller: every storage outcome
produces a state, carrying the persisted order list when one is stored
and the empty list when nothing is stored or the read failed. -/
theorem restore_never_fails (s : TMState) (r : StorageRead) :
    (loadTaskOrder s r).taskOrder =
      match r with
      | StorageRead.ok (some order) => order
      | StorageRead.ok none => []
      | StorageRead.failed => [] := by
  rcases r with v | _
  · rcases v with _ | o <;> rfl
  · rfl

/-- C8: a manual reorder replaces the in-memory order list with exactly
the submitted sequence and persists exactly that sequence, whatever
state (and fetch-derived order) the manager held before. -/
theorem manual_order_applied (s : TMState) (newOrder : List String) :
    (updateTaskOrder s newOrder).taskOrder = newOrder ∧
    (updateTaskOrder s newOrder).storedOrder = some newOrder :=
  ⟨rfl, rfl⟩

/-- C10: with a non-empty prior order, a successful fetch returning
zero issues reconciles to the empty order and persists it, overwriting
the stored manual order. -/
theorem empty_fetch_erases_order (s : TMState)
    (h : s.isLoading = false) (hne : s.taskOrder ≠ []) :
    reconcile s.taskOrder [] = [] ∧
    (loadTasksRun s (Except.ok [])).1.taskOrder = [] ∧
    (loadTasksRun s (Except.ok [])).1.storedOrder = some [] ∧
    (loadTasksRun s (Except.ok [])).2 = true := by
  have hrec : reconcile s.taskOrder [] = [] := by
    rw [reconcile_eq]
    by_cases hO : s.taskOrder = []
    · rw [if_pos hO]
      rfl
    · rw [if_neg hO]
      simp
  refine ⟨hrec, ?_, ?_, ?_⟩ <;>
    simp [loadTasksRun, loadTasksE, loadTryBody, loadBegin, hideError, showLoading,
      saveTaskOrder, renderTasks, updateStats, showEmptyState, hideEmptyState, h, hrec]

/-- Witness for C10: prior manual order ["A"], fetch resolves with no
issues. -/
theorem empty_fetch_erases_order_witness :
    reconcile ({ initialTM with taskOrder := ["A"] } : TMState).taskOrder [] = [] ∧
    (loadTasksRun { initialTM with taskOrder := ["A"] } (Except.ok [])).1.taskOrder = [] ∧
    (loadTasksRun { initialTM with taskOrder := ["A"] }
        (Except.ok [])).1.storedOrder = some [] ∧
    (loadTasksRun { initialTM with taskOrder := ["A"] } (Except.ok [])).2 = true :=
  empty_fetch_erases_order { initialTM with taskOrder := ["A"] } rfl (by decide)

end JiraTodo
